import Mathlib

/-!
Verification of the tremor-cli server bootstrap (`src/tremor-cli/src/server.rs`)
against its natural-language specification.

The file shallowly embeds `ServerRun::run_dun`, `ServerRun::run` and
`handle_api_request` as pure Lean functions.  External collaborators that live
outside the shown source (logger initialization, pid-file I/O, `World::start`,
`tremor_runtime::load_query_file` / `load_cfg_file`, the tide API server,
`world.stop()` and the run-loop join handle) are oracles collected in an `Env`
record; each oracle returns `Except String Unit` so that both its success and
failure paths can be explored.  `run_dun` additionally produces an ordered
trace of the observable effects it performs, so that ordering claims (trickle
before yaml, stop before join, nothing after an abort) become statements about
that trace.  Infallible log/print statements of the source are not modelled.
-/

set_option autoImplicit false

namespace TremorServer

/-- The source-kind classification used by `get_source_kind` (defined in
`tremor-cli`'s `util.rs`); `run_dun` only matches on its constructors, which
are exactly these. -/
inductive SourceKind where
  | Tremor
  | Trickle
  | Json
  | Yaml
  | Unsupported (ext : String)
  deriving DecidableEq, Repr

/-- Observable effects performed by `run_dun`, in the order the source code
performs them. -/
inductive Event where
  /-- The call `file::create(pid_file)` succeeded -/
  | pidCreate (path : String)
  /-- the process id was written into the pid file -/
  | pidWrite (path : String)
  /-- The call `World::start(capacity)` was invoked -/
  | worldStart (capacity : Nat)
  /-- The call `tremor_runtime::load_query_file(&world, file)` was invoked -/
  | loadQuery (file : String)
  /-- The call `tremor_runtime::load_cfg_file(&world, file)` was invoked -/
  | loadCfg (file : String)
  /-- The call `api_server(&world)` constructed the tide server -/
  | apiServerBuild
  /-- The call `app.listen(&self.api_host)` was invoked -/
  | apiListen (host : String)
  /-- The call `world.stop()` was requested -/
  | worldStop
  /-- the run-loop `handle` was awaited (joined) -/
  | joinHandle
  deriving DecidableEq, Repr

/-- The error outcomes of `run_dun`.  The source wraps pid-file and API errors
into formatted message strings and uses `ErrorKind::FileLoadError` /
`ErrorKind::UnsupportedFileType` for the load phase; we keep the payloads
structured (path, underlying message, kind) instead of pre-formatted. -/
inductive RunError where
  | loggerError (e : String)
  | pidCreateError (path : String) (e : String)
  | pidWriteError (path : String) (e : String)
  | worldStartError (e : String)
  | fileLoadError (path : String) (e : String)
  | unsupportedFileType (path : String) (kind : SourceKind) (expected : String)
  | apiError (e : String)
  | stopError (e : String)
  | joinError (e : String)
  deriving DecidableEq, Repr

/-- Oracles for the collaborators of `run_dun` that are outside the shown
source file. -/
structure Env where
  /-- Oracle for `log4rs::init_file` -/
  log_init : String → Except String Unit
  /-- Oracle for `file::create(pid_file)` -/
  pid_create : String → Except String Unit
  /-- Oracle for `file.write(pid)` on the created pid file -/
  pid_write : String → Except String Unit
  /-- Oracle for `World::start(capacity)` -/
  world_start : Nat → Except String Unit
  /-- Oracle for `get_source_kind(config_file)` -/
  get_source_kind : String → SourceKind
  /-- Oracle for `tremor_runtime::load_query_file(&world, file)` -/
  load_query_file : String → Except String Unit
  /-- Oracle for `tremor_runtime::load_cfg_file(&world, file)` -/
  load_cfg_file : String → Except String Unit
  /-- Oracle for `app.listen(&self.api_host)` (returns when the listener stops) -/
  api_listen : String → Except String Unit
  /-- Oracle for `world.stop()` -/
  world_stop : Except String Unit
  /-- Oracle for `handle.await` -/
  join_handle : Except String Unit

/-- The fields of the CLI's `ServerRun` record that `run_dun` reads. -/
structure ServerRun where
  logger_config : Option String
  pid : Option String
  recursion_limit : Nat
  artefacts : List String
  no_api : Bool
  api_host : String

/-- Logging phase: `log4rs::init_file` when a logger config is given, else the
infallible `env_logger::init()`. -/
def runLogInit (env : Env) : Option String → Except String Unit
  | none => Except.ok ()
  | some lc => env.log_init lc

/-- Pid-file phase: when a pid path is configured, create the file and write
the process id into it, turning either failure into a formatted error. -/
def pidPhase (env : Env) : Option String → List Event × Option RunError
  | none => ([], none)
  | some p =>
    match env.pid_create p with
    | Except.error e => ([], some (RunError.pidCreateError p e))
    | Except.ok _ =>
      match env.pid_write p with
      | Except.error e => ([Event.pidCreate p], some (RunError.pidWriteError p e))
      | Except.ok _ => ([Event.pidCreate p, Event.pidWrite p], none)

/-- First loop of `run_dun` over `self.artefacts`: trickle files are loaded
immediately via `load_query_file` (a failure aborts with `FileLoadError`),
yaml files are deferred into `yaml_files`, and any other kind aborts with
`UnsupportedFileType`.  Returns (events, collected yaml files, error). -/
def trickleLoop (env : Env) : List String → List Event × List String × Option RunError
  | [] => ([], [], none)
  | f :: rest =>
    match env.get_source_kind f with
    | SourceKind.Trickle =>
      match env.load_query_file f with
      | Except.error e => ([Event.loadQuery f], [], some (RunError.fileLoadError f e))
      | Except.ok _ =>
        let r := trickleLoop env rest
        (Event.loadQuery f :: r.1, r.2.1, r.2.2)
    | SourceKind.Yaml =>
      let r := trickleLoop env rest
      (r.1, f :: r.2.1, r.2.2)
    | SourceKind.Tremor =>
      ([], [], some (RunError.unsupportedFileType f SourceKind.Tremor "yaml"))
    | SourceKind.Json =>
      ([], [], some (RunError.unsupportedFileType f SourceKind.Json "yaml"))
    | SourceKind.Unsupported x =>
      ([], [], some (RunError.unsupportedFileType f (SourceKind.Unsupported x) "yaml"))

/-- Second loop of `run_dun` over the collected `yaml_files`: each is loaded
via `load_cfg_file`; a failure aborts with `FileLoadError`. -/
def cfgLoop (env : Env) : List String → List Event × Option RunError
  | [] => ([], none)
  | f :: rest =>
    match env.load_cfg_file f with
    | Except.error e => ([Event.loadCfg f], some (RunError.fileLoadError f e))
    | Except.ok _ =>
      let r := cfgLoop env rest
      (Event.loadCfg f :: r.1, r.2)

/-- Tail of `run_dun`: unless `no_api` is set, build the API server, listen
(an error returns immediately), then request `world.stop()`; in every
non-error path the run-loop handle is awaited last. -/
def apiPhase (env : Env) (s : ServerRun) : List Event × Except RunError Unit :=
  if s.no_api then
    match env.join_handle with
    | Except.error e => ([Event.joinHandle], Except.error (RunError.joinError e))
    | Except.ok _ => ([Event.joinHandle], Except.ok ())
  else
    match env.api_listen s.api_host with
    | Except.error e =>
      ([Event.apiServerBuild, Event.apiListen s.api_host],
       Except.error (RunError.apiError e))
    | Except.ok _ =>
      match env.world_stop with
      | Except.error e =>
        ([Event.apiServerBuild, Event.apiListen s.api_host, Event.worldStop],
         Except.error (RunError.stopError e))
      | Except.ok _ =>
        match env.join_handle with
        | Except.error e =>
          ([Event.apiServerBuild, Event.apiListen s.api_host, Event.worldStop,
            Event.joinHandle],
           Except.error (RunError.joinError e))
        | Except.ok _ =>
          ([Event.apiServerBuild, Event.apiListen s.api_host, Event.worldStop,
            Event.joinHandle],
           Except.ok ())

/-- Shallow embedding of `ServerRun::run_dun`: logging init, pid file,
`World::start(64)`, the two load loops, and the API/stop/join tail.  Returns
the ordered trace of observable effects together with the function's result. -/
def run_dun (env : Env) (s : ServerRun) : List Event × Except RunError Unit :=
  match runLogInit env s.logger_config with
  | Except.error e => ([], Except.error (RunError.loggerError e))
  | Except.ok _ =>
    match pidPhase env s.pid with
    | (ptr, some e) => (ptr, Except.error e)
    | (ptr, none) =>
      match env.world_start 64 with
      | Except.error e => (ptr, Except.error (RunError.worldStartError e))
      | Except.ok _ =>
        match trickleLoop env s.artefacts with
        | (ltr, _, some e) => (ptr ++ Event.worldStart 64 :: ltr, Except.error e)
        | (ltr, yamls, none) =>
          match cfgLoop env yamls with
          | (ctr, some e) =>
            (ptr ++ Event.worldStart 64 :: (ltr ++ ctr), Except.error e)
          | (ctr, none) =>
            let a := apiPhase env s
            (ptr ++ Event.worldStart 64 :: (ltr ++ ctr ++ a.1), a.2)

/-! ### Trace classifiers and loop-content lemmas -/

/-- Is this event a `load_query_file` call (a trickle load)? -/
def isLoadQuery : Event → Bool
  | Event.loadQuery _ => true
  | _ => false

/-- Is this event a `load_cfg_file` call (a yaml load)? -/
def isLoadCfg : Event → Bool
  | Event.loadCfg _ => true
  | _ => false

/-- No trickle load occurs anywhere in the trace. -/
def noQuery (l : List Event) : Bool :=
  l.all (fun e => !(isLoadQuery e))

/-- After every yaml load in the trace, no trickle load occurs: every trickle
load precedes every yaml load. -/
def cfgAfterQuery : List Event → Bool
  | [] => true
  | e :: rest => ((!(isLoadCfg e)) || noQuery rest) && cfgAfterQuery rest

lemma noQuery_cfgAfterQuery {l : List Event} (h : noQuery l = true) :
    cfgAfterQuery l = true := by
  induction l with
  | nil => rfl
  | cons e rest ih =>
    simp only [noQuery, List.all_cons, Bool.and_eq_true] at h
    simp only [cfgAfterQuery, Bool.and_eq_true, Bool.or_eq_true]
    exact ⟨Or.inr (by simpa [noQuery] using h.2), ih (by simpa [noQuery] using h.2)⟩

lemma cfgAfterQuery_append {l₁ l₂ : List Event}
    (h₁ : ∀ e ∈ l₁, isLoadCfg e = false) (h₂ : noQuery l₂ = true) :
    cfgAfterQuery (l₁ ++ l₂) = true := by
  induction l₁ with
  | nil => simpa using noQuery_cfgAfterQuery h₂
  | cons e rest ih =>
    simp only [List.cons_append, cfgAfterQuery, Bool.and_eq_true, Bool.or_eq_true]
    refine ⟨Or.inl ?_, ih (fun x hx => h₁ x (List.mem_cons_of_mem e hx))⟩
    simp [h₁ e (List.mem_cons_self e rest)]

lemma trickleLoop_events (env : Env) (l : List String) :
    ∀ ev ∈ (trickleLoop env l).1, ∃ f, ev = Event.loadQuery f := by
  induction l with
  | nil => intro ev h; simp [trickleLoop] at h
  | cons f rest ih =>
    intro ev h
    simp only [trickleLoop] at h
    rcases hk : env.get_source_kind f with _ | _ | _ | _ | x <;> rw [hk] at h
    · simp at h
    · rcases hq : env.load_query_file f with e | u <;> rw [hq] at h
      · simp at h
        exact ⟨f, h⟩
      · simp at h
        rcases h with h | h
        · exact ⟨f, h⟩
        · exact ih ev h
    · simp at h
    · exact ih ev h
    · simp at h

lemma cfgLoop_events (env : Env) (l : List String) :
    ∀ ev ∈ (cfgLoop env l).1, ∃ f, ev = Event.loadCfg f := by
  induction l with
  | nil => intro ev h; simp [cfgLoop] at h
  | cons f rest ih =>
    intro ev h
    simp only [cfgLoop] at h
    rcases hq : env.load_cfg_file f with e | u <;> rw [hq] at h
    · simp at h
      exact ⟨f, h⟩
    · simp at h
      rcases h with h | h
      · exact ⟨f, h⟩
      · exact ih ev h

lemma pidPhase_events (env : Env) (p : Option String) :
    ∀ ev ∈ (pidPhase env p).1,
      (∃ q, ev = Event.pidCreate q) ∨ ∃ q, ev = Event.pidWrite q := by
  intro ev h
  match p with
  | none => simp [pidPhase] at h
  | some q =>
    simp only [pidPhase] at h
    rcases hc : env.pid_create q with e | u <;> rw [hc] at h
    · simp at h
    · rcases hw : env.pid_write q with e | u <;> rw [hw] at h
      · simp at h
        exact Or.inl ⟨q, h⟩
      · simp at h
        rcases h with h | h
        · exact Or.inl ⟨q, h⟩
        · exact Or.inr ⟨q, h⟩

lemma apiPhase_events (env : Env) (s : ServerRun) :
    ∀ ev ∈ (apiPhase env s).1,
      ev = Event.apiServerBuild ∨ ev = Event.apiListen s.api_host ∨
      ev = Event.worldStop ∨ ev = Event.joinHandle := by
  intro ev h
  simp only [apiPhase] at h
  by_cases hn : s.no_api <;> simp only [hn, if_true, if_false] at h
  · rcases hj : env.join_handle with e | u <;> rw [hj] at h <;> simp at h <;>
      simp [h]
  · rcases hl : env.api_listen s.api_host with e | u <;> rw [hl] at h
    · simp at h
      rcases h with h | h <;> simp [h]
    · rcases hs : env.world_stop with e | u <;> rw [hs] at h
      · simp at h
        rcases h with h | h | h <;> simp [h]
      · rcases hj : env.join_handle with e | u <;> rw [hj] at h <;>
          · simp at h
            rcases h with h | h | h | h <;> simp [h]

lemma cfgAfterQuery_of_nocfg {l : List Event}
    (h : ∀ e ∈ l, isLoadCfg e = false) : cfgAfterQuery l = true := by
  have := @cfgAfterQuery_append l [] h rfl
  simpa using this

/-- C1: in every execution of `run_dun`, every trickle (dataflow-description)
file load is applied before any yaml (declarative configuration) file load:
the trace never shows a `load_query_file` call after a `load_cfg_file` call,
because the first loop over `self.artefacts` loads trickle files immediately
and defers yaml files, which are loaded only in the second loop. -/
theorem trickle_before_yaml (env : Env) (s : ServerRun) :
    cfgAfterQuery (run_dun env s).1 = true := by
  have hpid := pidPhase_events env s.pid
  have hapi := apiPhase_events env s
  have hnocfg : ∀ e ∈ (pidPhase env s.pid).1, isLoadCfg e = false := by
    intro ev he
    rcases hpid ev he with ⟨q, rfl⟩ | ⟨q, rfl⟩ <;> rfl
  rcases hL : runLogInit env s.logger_config with e | u
  · simp [run_dun, hL, cfgAfterQuery]
  · rcases hP : pidPhase env s.pid with ⟨ptr, _ | pe⟩
    · rw [hP] at hnocfg
      rcases hW : env.world_start 64 with e | u
      · simp only [run_dun, hL, hP, hW]
        exact cfgAfterQuery_of_nocfg hnocfg
      · have hltr := trickleLoop_events env s.artefacts
        rcases hT : trickleLoop env s.artefacts with ⟨ltr, yamls, _ | te⟩
        · rw [hT] at hltr
          have hctr := cfgLoop_events env yamls
          rcases hC : cfgLoop env yamls with ⟨ctr, _ | ce⟩
          · rw [hC] at hctr
            simp only [run_dun, hL, hP, hW, hT, hC]
            have hsplit :
                ptr ++ Event.worldStart 64 :: (ltr ++ ctr ++ (apiPhase env s).1)
                  = (ptr ++ Event.worldStart 64 :: ltr)
                      ++ (ctr ++ (apiPhase env s).1) := by
              simp
            rw [hsplit]
            apply cfgAfterQuery_append
            · intro ev he
              simp only [List.mem_append, List.mem_cons] at he
              rcases he with h | h | h
              · exact hnocfg ev h
              · subst h; rfl
              · rcases hltr ev h with ⟨f, rfl⟩; rfl
            · simp only [noQuery, List.all_eq_true, List.mem_append]
              intro ev he
              rcases he with h | h
              · rcases hctr ev h with ⟨f, rfl⟩; rfl
              · rcases hapi ev h with h | h | h | h <;> subst h <;> rfl
          · rw [hC] at hctr
            simp only [run_dun, hL, hP, hW, hT, hC]
            have hsplit : ptr ++ Event.worldStart 64 :: (ltr ++ ctr)
                = (ptr ++ Event.worldStart 64 :: ltr) ++ ctr := by
              simp
            rw [hsplit]
            apply cfgAfterQuery_append
            · intro ev he
              simp only [List.mem_append, List.mem_cons] at he
              rcases he with h | h | h
              · exact hnocfg ev h
              · subst h; rfl
              · rcases hltr ev h with ⟨f, rfl⟩; rfl
            · simp only [noQuery, List.all_eq_true]
              intro ev he
              rcases hctr ev he with ⟨f, rfl⟩; rfl
        · rw [hT] at hltr
          simp only [run_dun, hL, hP, hW, hT]
          apply cfgAfterQuery_of_nocfg
          intro ev he
          simp only [List.mem_append, List.mem_cons] at he
          rcases he with h | h | h
          · exact hnocfg ev h
          · subst h; rfl
          · rcases hltr ev h with ⟨f, rfl⟩; rfl
    · simp only [run_dun, hL, hP]
      rw [hP] at hnocfg
      exact cfgAfterQuery_of_nocfg hnocfg

/-! ### Characterizing the first loop on well-formed prefixes -/

/-- Every file in the list is either a trickle file whose load succeeds, or a
yaml file: the first loop passes over such a prefix without aborting. -/
def goodPre (env : Env) (l : List String) : Prop :=
  ∀ g ∈ l,
    (env.get_source_kind g = SourceKind.Trickle ∧
      env.load_query_file g = Except.ok ()) ∨
    env.get_source_kind g = SourceKind.Yaml

/-- The `load_query_file` events the first loop emits for a list of files. -/
def trickleEvents (env : Env) (l : List String) : List Event :=
  (l.filter (fun g => env.get_source_kind g == SourceKind.Trickle)).map
    Event.loadQuery

/-- The yaml files the first loop defers into `yaml_files`. -/
def yamlsOf (env : Env) (l : List String) : List String :=
  l.filter (fun g => env.get_source_kind g == SourceKind.Yaml)

lemma trickleLoop_append_good (env : Env) {l : List String} (rest : List String)
    (h : goodPre env l) :
    trickleLoop env (l ++ rest)
      = (trickleEvents env l ++ (trickleLoop env rest).1,
         yamlsOf env l ++ (trickleLoop env rest).2.1,
         (trickleLoop env rest).2.2) := by
  induction l with
  | nil => simp [trickleEvents, yamlsOf]
  | cons g l ih =>
    have hrest : goodPre env l := fun x hx => h x (List.mem_cons_of_mem g hx)
    rcases h g (List.mem_cons_self g l) with ⟨hk, hq⟩ | hk
    · simp [trickleLoop, hk, hq, trickleEvents, yamlsOf, ih hrest]
    · simp [trickleLoop, hk, trickleEvents, yamlsOf, ih hrest]

lemma trickleLoop_good (env : Env) {l : List String} (h : goodPre env l) :
    trickleLoop env l = (trickleEvents env l, yamlsOf env l, none) := by
  have hl := trickleLoop_append_good env [] h
  simpa [trickleLoop] using hl

/-- Source kinds that the startup classification loop rejects outright. -/
def isStartupForbidden : SourceKind → Bool
  | SourceKind.Tremor => true
  | SourceKind.Json => true
  | SourceKind.Unsupported _ => true
  | SourceKind.Trickle => false
  | SourceKind.Yaml => false

lemma trickleLoop_bad (env : Env) (f : String) (post : List String)
    (h : isStartupForbidden (env.get_source_kind f) = true) :
    trickleLoop env (f :: post)
      = ([], [],
         some (RunError.unsupportedFileType f (env.get_source_kind f) "yaml")) := by
  rcases hk : env.get_source_kind f with _ | _ | _ | _ | x <;>
    simp [isStartupForbidden, hk] at h ⊢ <;> simp [trickleLoop, hk]

lemma cfgLoop_append_ok (env : Env) {l : List String} (rest : List String)
    (h : ∀ g ∈ l, env.load_cfg_file g = Except.ok ()) :
    cfgLoop env (l ++ rest)
      = (l.map Event.loadCfg ++ (cfgLoop env rest).1, (cfgLoop env rest).2) := by
  induction l with
  | nil => simp [cfgLoop]
  | cons g l ih =>
    have hg := h g (List.mem_cons_self g l)
    simp [cfgLoop, hg, ih (fun x hx => h x (List.mem_cons_of_mem g hx))]

lemma cfgLoop_ok (env : Env) {l : List String}
    (h : ∀ g ∈ l, env.load_cfg_file g = Except.ok ()) :
    cfgLoop env l = (l.map Event.loadCfg, none) := by
  have hl := cfgLoop_append_ok env [] h
  simpa [cfgLoop] using hl

/-- C4: a startup artefact whose source kind is not permitted (`Tremor`,
`Json` or `Unsupported`) makes `run_dun` return `UnsupportedFileType` naming
that file, immediately from the classification loop: the trace stops at the
trickle loads of the preceding files, so neither the remaining files nor any
deferred yaml file is ever processed. -/
theorem unsupported_file_type_aborts (env : Env) (s : ServerRun)
    (ptr : List Event) (pre : List String) (f : String) (post : List String)
    (hL : runLogInit env s.logger_config = Except.ok ())
    (hP : pidPhase env s.pid = (ptr, none))
    (hW : env.world_start 64 = Except.ok ())
    (hA : s.artefacts = pre ++ f :: post)
    (hpre : goodPre env pre)
    (hbad : isStartupForbidden (env.get_source_kind f) = true) :
    (run_dun env s).2
        = Except.error
            (RunError.unsupportedFileType f (env.get_source_kind f) "yaml") ∧
    (run_dun env s).1 = ptr ++ Event.worldStart 64 :: trickleEvents env pre := by
  have hT : trickleLoop env s.artefacts
      = (trickleEvents env pre, yamlsOf env pre,
         some (RunError.unsupportedFileType f (env.get_source_kind f) "yaml")) := by
    rw [hA, trickleLoop_append_good env (f :: post) hpre, trickleLoop_bad env f post hbad]
    simp
  constructor <;> simp only [run_dun, hL, hP, hW, hT]

/-! ### Concrete environments and configurations for witnesses -/

instance {ε α : Type} [DecidableEq ε] [DecidableEq α] :
    DecidableEq (Except ε α) := fun a b => by
  rcases a with ea | ua <;> rcases b with eb | ub
  · exact decidable_of_iff (ea = eb) (by simp)
  · exact Decidable.isFalse (by simp)
  · exact Decidable.isFalse (by simp)
  · exact decidable_of_iff (ua = ub) (by simp)

instance (env : Env) (l : List String) : Decidable (goodPre env l) := by
  unfold goodPre
  infer_instance

/-- An all-succeeding oracle environment classifying files by a fixed table. -/
def env0 : Env where
  log_init := fun _ => Except.ok ()
  pid_create := fun _ => Except.ok ()
  pid_write := fun _ => Except.ok ()
  world_start := fun _ => Except.ok ()
  get_source_kind := fun f =>
    if f = "a.trickle" then SourceKind.Trickle
    else if f = "c.yaml" then SourceKind.Yaml
    else if f = "bad.json" then SourceKind.Json
    else SourceKind.Unsupported "txt"
  load_query_file := fun _ => Except.ok ()
  load_cfg_file := fun _ => Except.ok ()
  api_listen := fun _ => Except.ok ()
  world_stop := Except.ok ()
  join_handle := Except.ok ()

/-- A concrete `ServerRun` configuration. -/
def cfg0 : ServerRun where
  logger_config := none
  pid := none
  recursion_limit := 1024
  artefacts := ["a.trickle", "bad.json", "c.yaml"]
  no_api := true
  api_host := "0.0.0.0:9898"

/-- Witness for C4: with artefacts `[a.trickle, bad.json, c.yaml]` the run
aborts on `bad.json` with `UnsupportedFileType`, after loading only the
preceding trickle file. -/
theorem unsupported_file_type_aborts_witness :
    (run_dun env0 cfg0).2
        = Except.error
            (RunError.unsupportedFileType "bad.json"
              (env0.get_source_kind "bad.json") "yaml") ∧
    (run_dun env0 cfg0).1
        = [] ++ Event.worldStart 64 :: trickleEvents env0 ["a.trickle"] :=
  unsupported_file_type_aborts env0 cfg0 [] ["a.trickle"] "bad.json" ["c.yaml"]
    rfl rfl rfl rfl (by decide) (by decide)

/-- C5: whenever the load of a startup file fails — a trickle file in the
first loop via `load_query_file`, or a yaml file in the second loop via
`load_cfg_file` — `run_dun` returns `FileLoadError` carrying that file's path
and the underlying error, and the trace ends at that load: no later file is
loaded. -/
theorem file_load_error_aborts :
    (∀ (env : Env) (s : ServerRun) (ptr : List Event) (pre : List String)
        (f : String) (post : List String) (e : String),
      runLogInit env s.logger_config = Except.ok () →
      pidPhase env s.pid = (ptr, none) →
      env.world_start 64 = Except.ok () →
      s.artefacts = pre ++ f :: post →
      goodPre env pre →
      env.get_source_kind f = SourceKind.Trickle →
      env.load_query_file f = Except.error e →
      (run_dun env s).2 = Except.error (RunError.fileLoadError f e) ∧
      (run_dun env s).1
        = ptr ++ Event.worldStart 64 ::
            (trickleEvents env pre ++ [Event.loadQuery f])) ∧
    (∀ (env : Env) (s : ServerRun) (ptr : List Event) (qpre : List String)
        (g : String) (qpost : List String) (e : String),
      runLogInit env s.logger_config = Except.ok () →
      pidPhase env s.pid = (ptr, none) →
      env.world_start 64 = Except.ok () →
      goodPre env s.artefacts →
      yamlsOf env s.artefacts = qpre ++ g :: qpost →
      (∀ q ∈ qpre, env.load_cfg_file q = Except.ok ()) →
      env.load_cfg_file g = Except.error e →
      (run_dun env s).2 = Except.error (RunError.fileLoadError g e) ∧
      (run_dun env s).1
        = ptr ++ Event.worldStart 64 ::
            (trickleEvents env s.artefacts ++
              (qpre.map Event.loadCfg ++ [Event.loadCfg g]))) := by
  constructor
  · intro env s ptr pre f post e hL hP hW hA hpre hk hq
    have hT : trickleLoop env s.artefacts
        = (trickleEvents env pre ++ [Event.loadQuery f], yamlsOf env pre,
           some (RunError.fileLoadError f e)) := by
      rw [hA, trickleLoop_append_good env (f :: post) hpre]
      simp [trickleLoop, hk, hq]
    constructor <;> simp only [run_dun, hL, hP, hW, hT]
  · intro env s ptr qpre g qpost e hL hP hW hall hY hok hq
    have hT : trickleLoop env s.artefacts
        = (trickleEvents env s.artefacts, yamlsOf env s.artefacts, none) :=
      trickleLoop_good env hall
    have hC : cfgLoop env (yamlsOf env s.artefacts)
        = (qpre.map Event.loadCfg ++ [Event.loadCfg g],
           some (RunError.fileLoadError g e)) := by
      rw [hY, cfgLoop_append_ok env (g :: qpost) hok]
      simp [cfgLoop, hq]
    constructor <;> simp only [run_dun, hL, hP, hW, hT, hC]

/-- A configuration with one trickle and one yaml artefact. -/
def cfgQ : ServerRun where
  logger_config := none
  pid := none
  recursion_limit := 1024
  artefacts := ["a.trickle", "c.yaml"]
  no_api := true
  api_host := "0.0.0.0:9898"

/-- Environment `env0` with a failing trickle load for `a.trickle`. -/
def envFailQuery : Env :=
  { env0 with load_query_file := fun f =>
      if f = "a.trickle" then Except.error "bad trickle" else Except.ok () }

/-- Environment `env0` with a failing yaml load for `c.yaml`. -/
def envFailCfg : Env :=
  { env0 with load_cfg_file := fun f =>
      if f = "c.yaml" then Except.error "bad yaml" else Except.ok () }

/-- Witness for C5: a failing trickle load and a failing yaml load each abort
the run with the corresponding `FileLoadError`. -/
theorem file_load_error_aborts_witness :
    (run_dun envFailQuery cfgQ).2
        = Except.error (RunError.fileLoadError "a.trickle" "bad trickle") ∧
    (run_dun envFailCfg cfgQ).2
        = Except.error (RunError.fileLoadError "c.yaml" "bad yaml") :=
  ⟨(file_load_error_aborts.1 envFailQuery cfgQ [] [] "a.trickle" ["c.yaml"]
      "bad trickle" rfl rfl rfl rfl (by decide) (by decide) (by decide)).1,
   (file_load_error_aborts.2 envFailCfg cfgQ [] [] "c.yaml" [] "bad yaml"
      rfl rfl rfl (by decide) (by decide) (by decide) (by decide)).1⟩

/-! ### A classification of every event `run_dun` can emit -/

lemma run_dun_events (env : Env) (s : ServerRun) :
    ∀ ev ∈ (run_dun env s).1,
      ev ∈ (pidPhase env s.pid).1 ∨ ev = Event.worldStart 64 ∨
      (∃ f, ev = Event.loadQuery f) ∨ (∃ f, ev = Event.loadCfg f) ∨
      ev ∈ (apiPhase env s).1 := by
  intro ev hev
  rcases hL : runLogInit env s.logger_config with e | u
  · simp [run_dun, hL] at hev
  · rcases hP : pidPhase env s.pid with ⟨ptr, _ | pe⟩
    · rcases hW : env.world_start 64 with e | u
      · simp only [run_dun, hL, hP, hW] at hev
        left; exact hev
      · have hltr := trickleLoop_events env s.artefacts
        rcases hT : trickleLoop env s.artefacts with ⟨ltr, yamls, _ | te⟩
        · rw [hT] at hltr
          have hctr := cfgLoop_events env yamls
          rcases hC : cfgLoop env yamls with ⟨ctr, _ | ce⟩
          · rw [hC] at hctr
            simp only [run_dun, hL, hP, hW, hT, hC, List.mem_append,
              List.mem_cons] at hev
            rcases hev with h | h | h | h
            · left; exact h
            · right; left; exact h
            · rcases h with h | h
              · right; right; left; exact hltr ev h
              · right; right; right; left; exact hctr ev h
            · right; right; right; right; exact h
          · rw [hC] at hctr
            simp only [run_dun, hL, hP, hW, hT, hC, List.mem_append,
              List.mem_cons] at hev
            rcases hev with h | h | h | h
            · left; exact h
            · right; left; exact h
            · right; right; left; exact hltr ev h
            · right; right; right; left; exact hctr ev h
        · rw [hT] at hltr
          simp only [run_dun, hL, hP, hW, hT, List.mem_append,
            List.mem_cons] at hev
          rcases hev with h | h | h
          · left; exact h
          · right; left; exact h
          · right; right; left; exact hltr ev h
    · simp only [run_dun, hL, hP] at hev
      left; exact hev

lemma apiPhase_no_api (env : Env) (s : ServerRun) (hn : s.no_api = true) :
    ∀ ev ∈ (apiPhase env s).1, ev = Event.joinHandle := by
  intro ev h
  simp only [apiPhase, hn, if_true] at h
  rcases hj : env.join_handle with e | u <;> rw [hj] at h <;> simpa using h

/-- C7: on the API path (`no_api` unset), after the listener returns
successfully `run_dun` first requests `world.stop()` and only then joins the
run-loop handle; it returns `Ok` only after that join, so the trace ends with
`worldStop` followed by `joinHandle`. -/
theorem stop_then_join_before_ok (env : Env) (s : ServerRun)
    (ptr ltr : List Event) (yamls : List String) (ctr : List Event)
    (hL : runLogInit env s.logger_config = Except.ok ())
    (hP : pidPhase env s.pid = (ptr, none))
    (hW : env.world_start 64 = Except.ok ())
    (hT : trickleLoop env s.artefacts = (ltr, yamls, none))
    (hC : cfgLoop env yamls = (ctr, none))
    (hn : s.no_api = false)
    (hlisten : env.api_listen s.api_host = Except.ok ())
    (hstop : env.world_stop = Except.ok ())
    (hjoin : env.join_handle = Except.ok ()) :
    (run_dun env s).2 = Except.ok () ∧
    (run_dun env s).1
      = ptr ++ Event.worldStart 64 ::
          (ltr ++ ctr ++
            [Event.apiServerBuild, Event.apiListen s.api_host,
             Event.worldStop, Event.joinHandle]) ∧
    List.IsSuffix [Event.worldStop, Event.joinHandle] (run_dun env s).1 := by
  have hApi : apiPhase env s
      = ([Event.apiServerBuild, Event.apiListen s.api_host, Event.worldStop,
          Event.joinHandle], Except.ok ()) := by
    simp [apiPhase, hn, hlisten, hstop, hjoin]
  refine ⟨?_, ?_, ?_⟩
  · simp only [run_dun, hL, hP, hW, hT, hC, hApi]
  · simp only [run_dun, hL, hP, hW, hT, hC, hApi]
  · simp only [run_dun, hL, hP, hW, hT, hC, hApi]
    exact ⟨ptr ++ Event.worldStart 64 ::
      (ltr ++ ctr ++ [Event.apiServerBuild, Event.apiListen s.api_host]),
      by simp⟩

/-- A configuration exercising the API path. -/
def cfgApi : ServerRun :=
  { cfgQ with no_api := false }

/-- Witness for C7 at a concrete input. -/
theorem stop_then_join_before_ok_witness :
    (run_dun env0 cfgApi).2 = Except.ok () ∧
    (run_dun env0 cfgApi).1
      = [] ++ Event.worldStart 64 ::
          ([Event.loadQuery "a.trickle"] ++ [Event.loadCfg "c.yaml"] ++
            [Event.apiServerBuild, Event.apiListen "0.0.0.0:9898",
             Event.worldStop, Event.joinHandle]) ∧
    List.IsSuffix [Event.worldStop, Event.joinHandle] (run_dun env0 cfgApi).1 :=
  stop_then_join_before_ok env0 cfgApi [] [Event.loadQuery "a.trickle"]
    ["c.yaml"] [Event.loadCfg "c.yaml"] rfl rfl rfl (by decide) (by decide)
    rfl rfl rfl rfl

/-- C8: a configured pid file whose creation or write fails makes `run_dun`
return the corresponding error with an empty (resp. create-only) trace, so
`World::start` is never invoked; with no pid path configured, no pid-file
event ever appears in the trace. -/
theorem pid_failure_before_world_start :
    (∀ (env : Env) (s : ServerRun) (p e : String),
      runLogInit env s.logger_config = Except.ok () →
      s.pid = some p →
      env.pid_create p = Except.error e →
      (run_dun env s).2 = Except.error (RunError.pidCreateError p e) ∧
      (run_dun env s).1 = []) ∧
    (∀ (env : Env) (s : ServerRun) (p e : String),
      runLogInit env s.logger_config = Except.ok () →
      s.pid = some p →
      env.pid_create p = Except.ok () →
      env.pid_write p = Except.error e →
      (run_dun env s).2 = Except.error (RunError.pidWriteError p e) ∧
      (run_dun env s).1 = [Event.pidCreate p]) ∧
    (∀ (env : Env) (s : ServerRun) (q : String),
      s.pid = none →
      Event.pidCreate q ∉ (run_dun env s).1 ∧
      Event.pidWrite q ∉ (run_dun env s).1) := by
  refine ⟨?_, ?_, ?_⟩
  · intro env s p e hL hpid hc
    have hP : pidPhase env s.pid = ([], some (RunError.pidCreateError p e)) := by
      rw [hpid]; simp [pidPhase, hc]
    constructor <;> simp only [run_dun, hL, hP]
  · intro env s p e hL hpid hc hw
    have hP : pidPhase env s.pid
        = ([Event.pidCreate p], some (RunError.pidWriteError p e)) := by
      rw [hpid]; simp [pidPhase, hc, hw]
    constructor <;> simp only [run_dun, hL, hP]
  · intro env s q hpid
    have hP : (pidPhase env s.pid).1 = [] := by rw [hpid]; rfl
    constructor <;>
    · intro hmem
      rcases run_dun_events env s _ hmem with h | h | ⟨f, h⟩ | ⟨f, h⟩ | h
      · rw [hP] at h; simp at h
      · simp at h
      · simp at h
      · simp at h
      · rcases apiPhase_events env s _ h with h' | h' | h' | h' <;> simp at h'

/-- A configuration with a pid path. -/
def cfgPid : ServerRun :=
  { cfgQ with pid := some "tremor.pid" }

/-- Environment `env0` with a failing pid-file creation. -/
def envFailPidCreate : Env :=
  { env0 with pid_create := fun _ => Except.error "permission denied" }

/-- Environment `env0` with a failing pid write. -/
def envFailPidWrite : Env :=
  { env0 with pid_write := fun _ => Except.error "disk full" }

/-- Witness for C8 at concrete inputs. -/
theorem pid_failure_before_world_start_witness :
    ((run_dun envFailPidCreate cfgPid).2
        = Except.error (RunError.pidCreateError "tremor.pid" "permission denied") ∧
      (run_dun envFailPidCreate cfgPid).1 = []) ∧
    ((run_dun envFailPidWrite cfgPid).2
        = Except.error (RunError.pidWriteError "tremor.pid" "disk full") ∧
      (run_dun envFailPidWrite cfgPid).1 = [Event.pidCreate "tremor.pid"]) ∧
    (Event.pidCreate "tremor.pid" ∉ (run_dun env0 cfgQ).1 ∧
      Event.pidWrite "tremor.pid" ∉ (run_dun env0 cfgQ).1) :=
  ⟨pid_failure_before_world_start.1 envFailPidCreate cfgPid "tremor.pid"
      "permission denied" rfl rfl rfl,
   pid_failure_before_world_start.2.1 envFailPidWrite cfgPid "tremor.pid"
      "disk full" rfl rfl rfl rfl,
   pid_failure_before_world_start.2.2 env0 cfgQ "tremor.pid" rfl⟩

/-- C9: with `no_api` set, `run_dun` never builds the API server, never
listens and never requests `world.stop()`; when it succeeds, the last thing
it did was await the run-loop handle. -/
theorem no_api_skips_api_and_stop (env : Env) (s : ServerRun)
    (hn : s.no_api = true) :
    Event.worldStop ∉ (run_dun env s).1 ∧
    Event.apiServerBuild ∉ (run_dun env s).1 ∧
    (∀ h, Event.apiListen h ∉ (run_dun env s).1) ∧
    ((run_dun env s).2 = Except.ok () →
      List.IsSuffix [Event.joinHandle] (run_dun env s).1) := by
  have hpid := pidPhase_events env s.pid
  have hone := apiPhase_no_api env s hn
  refine ⟨?_, ?_, ?_, ?_⟩
  · intro hmem
    rcases run_dun_events env s _ hmem with h | h | ⟨f, h⟩ | ⟨f, h⟩ | h
    · rcases hpid _ h with ⟨q, hq⟩ | ⟨q, hq⟩ <;> simp at hq
    · simp at h
    · simp at h
    · simp at h
    · have := hone _ h; simp at this
  · intro hmem
    rcases run_dun_events env s _ hmem with h | h | ⟨f, h⟩ | ⟨f, h⟩ | h
    · rcases hpid _ h with ⟨q, hq⟩ | ⟨q, hq⟩ <;> simp at hq
    · simp at h
    · simp at h
    · simp at h
    · have := hone _ h; simp at this
  · intro hh hmem
    rcases run_dun_events env s _ hmem with h | h | ⟨f, h⟩ | ⟨f, h⟩ | h
    · rcases hpid _ h with ⟨q, hq⟩ | ⟨q, hq⟩ <;> simp at hq
    · simp at h
    · simp at h
    · simp at h
    · have := hone _ h; simp at this
  · intro hok
    rcases hL : runLogInit env s.logger_config with e | u
    · simp [run_dun, hL] at hok
    · rcases hP : pidPhase env s.pid with ⟨ptr, _ | pe⟩
      · rcases hW : env.world_start 64 with e | u
        · simp [run_dun, hL, hP, hW] at hok
        · rcases hT : trickleLoop env s.artefacts with ⟨ltr, yamls, _ | te⟩
          · rcases hC : cfgLoop env yamls with ⟨ctr, _ | ce⟩
            · rcases hj : env.join_handle with e | uu
              · have hApi : apiPhase env s
                    = ([Event.joinHandle],
                       Except.error (RunError.joinError e)) := by
                  simp [apiPhase, hn, hj]
                simp [run_dun, hL, hP, hW, hT, hC, hApi] at hok
              · have hApi : apiPhase env s
                    = ([Event.joinHandle], Except.ok ()) := by
                  simp [apiPhase, hn, hj]
                simp only [run_dun, hL, hP, hW, hT, hC, hApi]
                exact ⟨ptr ++ Event.worldStart 64 :: (ltr ++ ctr), by simp⟩
            · simp [run_dun, hL, hP, hW, hT, hC] at hok
          · simp [run_dun, hL, hP, hW, hT] at hok
      · simp [run_dun, hL, hP] at hok

/-- Witness for C9 at a concrete input. -/
theorem no_api_skips_api_and_stop_witness :
    Event.worldStop ∉ (run_dun env0 cfgQ).1 ∧
    Event.apiServerBuild ∉ (run_dun env0 cfgQ).1 ∧
    (∀ h, Event.apiListen h ∉ (run_dun env0 cfgQ).1) ∧
    ((run_dun env0 cfgQ).2 = Except.ok () →
      List.IsSuffix [Event.joinHandle] (run_dun env0 cfgQ).1) :=
  no_api_skips_api_and_stop env0 cfgQ rfl

/-! ### Mailbox capacity (C3) -/

/-- The capacities of all `World::start` invocations recorded in a trace. -/
def worldStartCaps (l : List Event) : List Nat :=
  l.filterMap (fun e =>
    match e with
    | Event.worldStart c => some c
    | _ => none)

/-- A second configuration differing from `cfgQ` in every field, to exhibit
that no configuration field influences the `World::start` capacity. -/
def cfgAlt : ServerRun where
  logger_config := some "logger.yaml"
  pid := some "tremor.pid"
  recursion_limit := 7
  artefacts := []
  no_api := false
  api_host := "127.0.0.1:1234"

/-- C3 counterexample: the claim says the World's mailbox capacity is a
required caller-supplied configuration value with no internally fixed
default; but under two configurations differing in every field the run
starts the World with the same internally fixed capacity 64 (the source
hardcodes `World::start(64)` behind a TODO, and `ServerRun` carries no
`mailbox_capacity` option). -/
theorem mailbox_capacity_counterexample :
    worldStartCaps (run_dun env0 cfgQ).1 = [64] ∧
    worldStartCaps (run_dun env0 cfgAlt).1 = [64] := by
  constructor <;> rfl

/-- C3 amended: the World's mailbox capacity is the internally fixed constant
64: every `World::start` invocation `run_dun` ever performs uses capacity 64,
for every environment and configuration (no `mailbox_capacity` option
exists). -/
theorem mailbox_capacity_always_64 (env : Env) (s : ServerRun) (c : Nat)
    (h : Event.worldStart c ∈ (run_dun env s).1) : c = 64 := by
  rcases run_dun_events env s _ h with h' | h' | ⟨f, h'⟩ | ⟨f, h'⟩ | h'
  · rcases pidPhase_events env s.pid _ h' with ⟨q, hq⟩ | ⟨q, hq⟩ <;> simp at hq
  · injection h'
  · simp at h'
  · simp at h'
  · rcases apiPhase_events env s _ h' with h'' | h'' | h'' | h'' <;> simp at h''

/-- Witness for the amended C3 at a concrete input. -/
theorem mailbox_capacity_always_64_witness :
    Event.worldStart 64 ∈ (run_dun env0 cfgQ).1 ∧ 64 = 64 :=
  ⟨by decide, mailbox_capacity_always_64 env0 cfgQ 64 (by decide)⟩

/-! ### `ServerRun::run` (C6) -/

/-- Observable actions of `ServerRun::run`. -/
inductive RunAction where
  | logError (msg : String)
  | exitProcess (code : Nat)
  deriving DecidableEq, Repr

/-- Shallow embedding of `ServerRun::run`: it runs `run_dun`; on an error it
logs the head error's message, then the message of every further error in
the error's iterator (`e.iter().skip(1)`), then the shutdown line, and exits
the process with code 1; on `Ok` it does none of this.  `display` renders a
`RunError` the way the source's `Display` does, and `causes` enumerates the
rest of the error-chain iterator; both live outside the shown source, so
they are taken as oracles. -/
def server_run (env : Env) (display : RunError → String)
    (causes : RunError → List String) (s : ServerRun) : List RunAction :=
  match (run_dun env s).2 with
  | Except.ok _ => []
  | Except.error e =>
      RunAction.logError (display e)
        :: ((causes e).map RunAction.logError
          ++ [RunAction.logError
                "We are SHUTTING DOWN due to errors during initialization!",
              RunAction.exitProcess 1])

lemma getLast?_append_pair {α : Type} (l : List α) (a b : α) :
    (l ++ [a, b]).getLast? = some b := by
  induction l with
  | nil => rfl
  | cons x l ih =>
    cases l with
    | nil => rfl
    | cons y t =>
      rw [List.cons_append, List.cons_append, List.getLast?_cons_cons,
        ← List.cons_append]
      exact ih

/-- C6: whenever `run_dun` returns an error, `ServerRun::run` logs the full
message chain (the head error and each error of its iterator) and its final
action is a process exit with the non-zero code 1; on an `Ok` result it
performs no action at all. -/
theorem run_reports_chain_and_exits (env : Env) (display : RunError → String)
    (causes : RunError → List String) (s : ServerRun) :
    (∀ e, (run_dun env s).2 = Except.error e →
      (∀ m ∈ display e :: causes e,
        RunAction.logError m ∈ server_run env display causes s) ∧
      (server_run env display causes s).getLast?
          = some (RunAction.exitProcess 1) ∧
      (∀ c, RunAction.exitProcess c ∈ server_run env display causes s →
        c ≠ 0)) ∧
    (∀ u, (run_dun env s).2 = Except.ok u →
      server_run env display causes s = []) := by
  constructor
  · intro e he
    refine ⟨?_, ?_, ?_⟩
    · intro m hm
      simp only [server_run, he]
      rcases List.mem_cons.mp hm with rfl | hm'
      · exact List.mem_cons_self _ _
      · exact List.mem_cons_of_mem _
          (List.mem_append_left _ (List.mem_map_of_mem RunAction.logError hm'))
    · simp only [server_run, he]
      rw [← List.cons_append]
      exact getLast?_append_pair _ _ _
    · intro c hc
      simp only [server_run, he, List.mem_cons, List.mem_append,
        List.mem_map] at hc
      rcases hc with hc | ⟨m, _, hc⟩ | hc | hc <;> simp_all
  · intro u hu
    simp [server_run, hu]

/-- A concrete error-chain rendering for the witness. -/
def display0 : RunError → String := fun _ => "boom"

/-- A concrete cause list for the witness. -/
def causes0 : RunError → List String := fun _ => ["cause one"]

/-- Witness for C6: a failing run logs the chain and ends in `exit 1`; a
succeeding run performs no action. -/
theorem run_reports_chain_and_exits_witness :
    RunAction.logError "boom" ∈ server_run env0 display0 causes0 cfg0 ∧
    (server_run env0 display0 causes0 cfg0).getLast?
        = some (RunAction.exitProcess 1) ∧
    server_run env0 display0 causes0 cfgQ = [] :=
  ⟨((run_reports_chain_and_exits env0 display0 causes0 cfg0).1
      (RunError.unsupportedFileType "bad.json" SourceKind.Json "yaml")
      (by decide)).1 "boom" (List.mem_cons_self _ _),
   ((run_reports_chain_and_exits env0 display0 causes0 cfg0).1
      (RunError.unsupportedFileType "bad.json" SourceKind.Json "yaml")
      (by decide)).2.1,
   (run_reports_chain_and_exits env0 display0 causes0 cfgQ).2 () (by decide)⟩

/-! ### `handle_api_request` (C10) -/

/-- The resource types `api::accept` can request. -/
inductive ResourceType where
  | json
  | yaml
  deriving DecidableEq, Repr

/-- Shallow embedding of `handle_api_request`: run the handler; if it returns
an API error, serialize that error into a response respecting the requested
resource type, and if that serialization itself fails, convert the
serialization error into a response — so the api-error branch never
propagates a failure.  Requests, responses and errors are kept as strings;
the handler, `api::accept`, `api::serialize_error` and the error-to-response
conversion are oracles. -/
def handle_api_request (accept : String → ResourceType)
    (handler_func : String → Except String String)
    (serialize_error : ResourceType → String → Except String String)
    (error_into_response : String → String)
    (req : String) : Except String String :=
  let resource_type := accept req
  match handler_func req with
  | Except.ok resp => Except.ok resp
  | Except.error api_error =>
    match serialize_error resource_type api_error with
    | Except.ok resp => Except.ok resp
    | Except.error e => Except.ok (error_into_response e)

/-- C10: when the handler returns an API error, `handle_api_request` always
yields `Ok`: the serialized error response when serialization succeeds, and
the converted serialization error otherwise; it never returns `error`. -/
theorem api_error_branch_yields_ok (accept : String → ResourceType)
    (handler_func : String → Except String String)
    (serialize_error : ResourceType → String → Except String String)
    (error_into_response : String → String)
    (req : String) (a : String)
    (h : handler_func req = Except.error a) :
    (handle_api_request accept handler_func serialize_error
        error_into_response req).isOk = true ∧
    (∀ r, serialize_error (accept req) a = Except.ok r →
      handle_api_request accept handler_func serialize_error
        error_into_response req = Except.ok r) ∧
    (∀ e, serialize_error (accept req) a = Except.error e →
      handle_api_request accept handler_func serialize_error
        error_into_response req = Except.ok (error_into_response e)) := by
  refine ⟨?_, ?_, ?_⟩
  · rcases hs : serialize_error (accept req) a with e | r <;>
      simp [handle_api_request, h, hs, Except.isOk, Except.toBool]
  · intro r hs
    simp [handle_api_request, h, hs]
  · intro e hs
    simp [handle_api_request, h, hs]

/-- A handler that always fails with an API error. -/
def failingHandler : String → Except String String :=
  fun _ => Except.error "api failure"

/-- An error serializer that itself fails. -/
def failingSerializer : ResourceType → String → Except String String :=
  fun _ e => Except.error e

/-- The fallback conversion of an error into a response. -/
def intoResponse : String → String :=
  fun e => "response: " ++ e

/-- Witness for C10: with a failing handler and a failing serializer the
request still produces an `Ok` response built from the fallback conversion. -/
theorem api_error_branch_yields_ok_witness :
    (handle_api_request (fun _ => ResourceType.json) failingHandler
        failingSerializer intoResponse "req").isOk = true ∧
    handle_api_request (fun _ => ResourceType.json) failingHandler
        failingSerializer intoResponse "req"
      = Except.ok (intoResponse "api failure") :=
  ⟨(api_error_branch_yields_ok (fun _ => ResourceType.json) failingHandler
      failingSerializer intoResponse "req" "api failure" rfl).1,
   (api_error_branch_yields_ok (fun _ => ResourceType.json) failingHandler
      failingSerializer intoResponse "req" "api failure" rfl).2.2
     "api failure" rfl⟩

/-! ### Spec-modelled load semantics (C2)

`tremor_runtime::load_query_file`, `tremor_runtime::load_cfg_file` and the
World's registries are not part of the shown source (`server.rs` only calls
them), so for the startup scenario of C2 their behaviour is modelled from the
spec and combined with the two loops of `run_dun` exactly as the source
sequences them. -/

/-- Modelled from the spec: the dialect-specific content of a startup source
file — a dataflow-description (trickle) source defines a pipeline, a
declarative (yaml) source defines a binding referencing pipelines by name
(§4.5, §6, §8). -/
inductive FileContent where
  | pipelineDef (name : String)
  | bindingDef (name : String) (refs : List String)
  deriving DecidableEq, Repr

/-- Modelled from the spec: a startup artefact file, with its path and its
content. -/
structure ArtefactFile where
  path : String
  content : FileContent
  deriving DecidableEq, Repr

/-- Modelled from the spec: the dialect classification of a file, by its
content kind (dataflow description ⇒ trickle, declarative ⇒ yaml). -/
def fileKind : FileContent → SourceKind
  | FileContent.pipelineDef _ => SourceKind.Trickle
  | FileContent.bindingDef _ _ => SourceKind.Yaml

/-- Modelled from the spec: the registries the load phase populates. -/
structure LoaderState where
  pipelines : List String
  bindings : List String
  deriving DecidableEq, Repr

/-- Modelled from the spec: errors of the modelled load functions. -/
inductive LoadError where
  /-- a binding references a pipeline that is not yet published (§4.3, §8) -/
  | validationError (missing : String)
  /-- the file's content is not of the dialect the loader expects -/
  | parseError (path : String)
  deriving DecidableEq, Repr

/-- Modelled from the spec: errors of the modelled load phase, mirroring
`ErrorKind::FileLoadError` and `ErrorKind::UnsupportedFileType`. -/
inductive LoadRunError where
  | fileLoadError (path : String) (e : LoadError)
  | unsupportedFileType (path : String) (kind : SourceKind)
  deriving DecidableEq, Repr

/-- Modelled from the spec: `load_query_file` applies a dataflow-description
source as a Pipeline publish. -/
def load_query_fileM (st : LoaderState) (f : ArtefactFile) :
    Except LoadError LoaderState :=
  match f.content with
  | FileContent.pipelineDef n =>
    Except.ok { st with pipelines := st.pipelines ++ [n] }
  | FileContent.bindingDef _ _ => Except.error (LoadError.parseError f.path)

/-- The first pipeline name in the list that is not published. -/
def firstMissing (pipelines : List String) : List String → Option String
  | [] => none
  | r :: rest =>
    if pipelines.contains r then firstMissing pipelines rest else some r

/-- Modelled from the spec: `load_cfg_file` applies a declarative source; a
binding is validated against the pipeline registry and fails with a
validation error citing the first missing pipeline (§4.3, §8). -/
def load_cfg_fileM (st : LoaderState) (f : ArtefactFile) :
    Except LoadError LoaderState :=
  match f.content with
  | FileContent.pipelineDef n =>
    Except.ok { st with pipelines := st.pipelines ++ [n] }
  | FileContent.bindingDef n refs =>
    match firstMissing st.pipelines refs with
    | some missing => Except.error (LoadError.validationError missing)
    | none => Except.ok { st with bindings := st.bindings ++ [n] }

/-- The first loop of `run_dun` over spec-modelled files: trickle files are
loaded immediately, yaml files are deferred, any other kind aborts. -/
def trickleLoopM (st : LoaderState) :
    List ArtefactFile → Except LoadRunError (LoaderState × List ArtefactFile)
  | [] => Except.ok (st, [])
  | f :: rest =>
    match fileKind f.content with
    | SourceKind.Trickle =>
      match load_query_fileM st f with
      | Except.error e => Except.error (LoadRunError.fileLoadError f.path e)
      | Except.ok st' =>
        match trickleLoopM st' rest with
        | Except.error e => Except.error e
        | Except.ok (st'', yamls) => Except.ok (st'', yamls)
    | SourceKind.Yaml =>
      match trickleLoopM st rest with
      | Except.error e => Except.error e
      | Except.ok (st', yamls) => Except.ok (st', f :: yamls)
    | k => Except.error (LoadRunError.unsupportedFileType f.path k)

/-- The second loop of `run_dun` over the deferred yaml files. -/
def cfgLoopM (st : LoaderState) :
    List ArtefactFile → Except LoadRunError LoaderState
  | [] => Except.ok st
  | f :: rest =>
    match load_cfg_fileM st f with
    | Except.error e => Except.error (LoadRunError.fileLoadError f.path e)
    | Except.ok st' => cfgLoopM st' rest

/-- The load phase of `run_dun` over spec-modelled files, starting from empty
registries: first loop (load trickle, defer yaml), then second loop. -/
def run_dun_load (files : List ArtefactFile) :
    Except LoadRunError LoaderState :=
  match trickleLoopM ⟨[], []⟩ files with
  | Except.error e => Except.error e
  | Except.ok (st, yamls) => cfgLoopM st yamls

/-- Loading strictly in the supplied order without the partitioning — the
execution the claim's reading of "reverse order" describes; this follows the
spec's words, for comparison with `run_dun_load`. -/
def seqLoad (st : LoaderState) : List ArtefactFile → Except LoadRunError LoaderState
  | [] => Except.ok st
  | f :: rest =>
    match fileKind f.content with
    | SourceKind.Trickle =>
      match load_query_fileM st f with
      | Except.error e => Except.error (LoadRunError.fileLoadError f.path e)
      | Except.ok st' => seqLoad st' rest
    | _ =>
      match load_cfg_fileM st f with
      | Except.error e => Except.error (LoadRunError.fileLoadError f.path e)
      | Except.ok st' => seqLoad st' rest

/-- The dataflow-description file defining pipeline `p1`. -/
def pipelineFile : ArtefactFile :=
  ⟨"p1.trickle", FileContent.pipelineDef "p1"⟩

/-- The configuration file defining binding `b1`, which references `p1`. -/
def bindingFile : ArtefactFile :=
  ⟨"b.yaml", FileContent.bindingDef "b1" ["p1"]⟩

/-- C2 counterexample: with the two files supplied in reverse order on the
artefact list (binding configuration file first, dataflow file second),
startup does NOT fail — it succeeds and publishes both artefacts, because
`run_dun` loads the trickle file first regardless of its position in the
list. -/
theorem reverse_order_counterexample :
    run_dun_load [bindingFile, pipelineFile]
      = Except.ok { pipelines := ["p1"], bindings := ["b1"] } := by
  rfl

/-- C2 amended: supplying the two files in reverse order on the artefact list
still succeeds (the dataflow file is loaded first because the first loop
defers every yaml file); a validation error citing `p1` as missing arises
exactly when the loads are applied strictly in the supplied order, binding
file first — which `run_dun` never does. -/
theorem reverse_order_amended :
    run_dun_load [bindingFile, pipelineFile]
      = Except.ok { pipelines := ["p1"], bindings := ["b1"] } ∧
    run_dun_load [pipelineFile, bindingFile]
      = Except.ok { pipelines := ["p1"], bindings := ["b1"] } ∧
    seqLoad ⟨[], []⟩ [bindingFile, pipelineFile]
      = Except.error
          (LoadRunError.fileLoadError "b.yaml"
            (LoadError.validationError "p1")) := by
  refine ⟨rfl, rfl, rfl⟩

end TremorServer
